/-
Verification of the RIFT 2026 CI/CD healing agent (rift-agent/backend)
against its natural-language specification.

Shallow embedding notes:
  * Python numeric values are modelled over ℕ / Int / ℚ (floats are
    idealised as exact rationals; `round(x, 2)` is modelled by `round2`).
  * Every LangGraph node (`clone_agent`, `analyze_agent`, `fix_agent`,
    `git_agent`, `cicd_agent`, `score_agent`, `increment_retry`) is a pure
    function on `AgentState`, mirroring backend/agent/agents/*.py and
    backend/agent/orchestrator.py.  Genuine I/O performed by a node
    (subprocess invocations, the OpenAI call, the file system, the clock,
    GitHub polling) is passed in as an explicit oracle argument; the
    node's own control flow and state updates are translated from the
    source.  Timestamps are threaded as an opaque `now : String`.
  * Timeline `detail` strings are rendered with `toString` instead of
    Python float formatting; no claim depends on their exact text.
-/
import Mathlib

namespace Rift

/-- Kernel-computable floor of a rational (equal to `⌊q⌋`, see
`ratFloor_eq_floor`). -/
def ratFloor (q : ℚ) : ℤ := q.num / (q.den : ℤ)

/-- Models Python `round(x, 2)` over exact rationals (rounding to the
nearest centi-unit; exact half-cent ties are idealised). -/
def round2 (q : ℚ) : ℚ := (ratFloor (q * 100 + 1 / 2) : ℚ) / 100

/-- Models Python `round(x, 1)` (used for `tests_passed_pct`). -/
def round1 (q : ℚ) : ℚ := (ratFloor (q * 10 + 1 / 2) : ℚ) / 10

/-- Embeds `agent/state.py`: a single test/lint failure discovered during analysis. -/
structure FailureEvent where
  bug_type : String
  file : String
  line : Int
  message : String
deriving DecidableEq

/-- Embeds `agent/state.py`: a single fix generated and applied by the agent. -/
structure FixRecord where
  bug_type : String
  file : String
  line : Int
  fix_description : String
  patch : String
  status : String
deriving DecidableEq

/-- Embeds `agent/state.py`: one checkpoint in the CI/CD timeline. -/
structure CICDEvent where
  timestamp : String
  event : String
  detail : String
  status : String
deriving DecidableEq

/-- Embeds `agent/state.py`: the score breakdown record. -/
structure ScoreBreakdown where
  tests_passed_pct : ℚ
  fixes_applied : ℕ
  fix_quality_score : ℚ
  ci_success_bonus : ℚ
  base_score : ℚ
  speed_bonus : ℚ
  efficiency_penalty : ℚ
  total_score : ℚ
deriving DecidableEq

/-- Embeds `agent/state.py`: the shared LangGraph state (`AgentState` TypedDict). -/
structure AgentState where
  repo_url : String
  team_name : String
  leader_name : String
  openai_key : String
  retry_limit : Int
  github_token : String
  branch_name : String
  clone_path : String
  language : String
  failures : List FailureEvent
  total_tests : ℕ
  tests_passed : ℕ
  tests_failed : ℕ
  fixes : List FixRecord
  commit_sha : String
  pr_url : String
  cicd_timeline : List CICDEvent
  cicd_status : String
  score : ScoreBreakdown
  retry_count : ℕ
  status : String
  error_message : Option String
  run_id : String
  started_at : String
  finished_at : String
  duration_seconds : ℚ
deriving DecidableEq

/-- Embeds `score_agent.py` line 53 / `fix_agent.py` line 235: number of fix
records whose `status` is `"applied"`. -/
def appliedCount (fixes : List FixRecord) : ℕ :=
  (fixes.filter (fun f => f.status == "applied")).length

/-- Embeds `score_agent.py` lines 40-50: the Tests-Passed component (max 40). -/
def testsScoreOf (total_tests tests_passed : ℕ) (failures : List FailureEvent) : ℚ :=
  if 0 < total_tests then (tests_passed : ℚ) / (total_tests : ℚ) * 40
  else if failures.length = 0 then 40 else 0

/-- Embeds `score_agent.py` lines 40-50: `tests_passed_pct`, computed by the same
if-chain as `testsScoreOf`. -/
def testsPctOf (total_tests tests_passed : ℕ) (failures : List FailureEvent) : ℚ :=
  if 0 < total_tests then (tests_passed : ℚ) / (total_tests : ℚ) * 100
  else if failures.length = 0 then 100 else 0

/-- Embeds `score_agent.py` lines 56-60: the Fix-Quality component (max 40). -/
def fixQualityComponent (applied_fixes total_failures : ℕ) : ℚ :=
  if 0 < total_failures then (applied_fixes : ℚ) / (total_failures : ℚ) * 40 else 40

/-- Embeds `score_agent.py` lines 63-69: the CI/CD bonus (0 or 20). -/
def ciBonusComponent (cicd_status : String) (total_failures total_tests : ℕ) : ℚ :=
  if cicd_status = "success" then 20
  else if total_failures = 0 ∧ total_tests = 0 then 20
  else 0

/-- Embeds `score_agent.py` line 75: the speed bonus (+10 when under 300 s). -/
def speedBonusComponent (duration_seconds : ℚ) : ℚ :=
  if duration_seconds < 300 then 10 else 0

/-- Embeds `score_agent.py` lines 79-80: `-2` per commit over 20, where the
commit count is `retry_count + 1`. -/
def efficiencyPenaltyComponent (retry_count : ℕ) : ℚ :=
  max 0 ((((retry_count : ℚ) + 1) - 20) * 2)

/-- Rendering of the `score_calculated` timeline detail (Python float
formatting approximated with `toString`). -/
def scoreDetail (total base speed pen : ℚ) : String :=
  "Score: " ++ toString total ++ "/110 | Base: " ++ toString base ++
    "/100 | Speed Bonus: +" ++ toString speed ++ " | Efficiency Penalty: -" ++ toString pen

/-- Embeds `agents/score_agent.py`, `score_agent` (lines 27-115): compute the
composite score breakdown, append a timeline event, and overwrite
`status` with `"success"` when the total is at least 50, `"partial"`
otherwise. -/
def score_agent (now : String) (s : AgentState) : AgentState :=
  let tests_passed_pct := testsPctOf s.total_tests s.tests_passed s.failures
  let tests_score := testsScoreOf s.total_tests s.tests_passed s.failures
  let applied_fixes := appliedCount s.fixes
  let total_failures := s.failures.length
  let fix_quality_score := fixQualityComponent applied_fixes total_failures
  let ci_bonus := ciBonusComponent s.cicd_status total_failures s.total_tests
  let base_score := tests_score + fix_quality_score + ci_bonus
  let speed_bonus := speedBonusComponent s.duration_seconds
  let efficiency_penalty := efficiencyPenaltyComponent s.retry_count
  let total_score := round2 (max 0 (base_score + speed_bonus - efficiency_penalty))
  let breakdown : ScoreBreakdown :=
    { tests_passed_pct := round1 tests_passed_pct
      fixes_applied := applied_fixes
      fix_quality_score := round2 fix_quality_score
      ci_success_bonus := ci_bonus
      base_score := round2 base_score
      speed_bonus := speed_bonus
      efficiency_penalty := efficiency_penalty
      total_score := total_score }
  { s with
    score := breakdown
    cicd_timeline := s.cicd_timeline ++
      [⟨now, "score_calculated", scoreDetail total_score base_score speed_bonus efficiency_penalty, "success"⟩]
    status := if 50 ≤ total_score then "success" else "partial" }

/-- Modelled from the claim's words (C1): the scoring algorithm as a pure
function of `(total_tests, tests_passed, failure count, applied-fix
count, ci_status, elapsed seconds, retry_count)`, to be compared with
the source-derived `score_agent`. -/
def specTotalScore (total_tests tests_passed failure_count applied_count : ℕ)
    (ci_status : String) (elapsed : ℚ) (retry_count : ℕ) : ℚ :=
  let tests_score : ℚ :=
    if 0 < total_tests then (tests_passed : ℚ) / (total_tests : ℚ) * 40
    else if failure_count = 0 then 40 else 0
  let fix_quality_score : ℚ :=
    if 0 < failure_count then (applied_count : ℚ) / (failure_count : ℚ) * 40 else 40
  let ci_bonus : ℚ :=
    if ci_status = "success" ∨ (failure_count = 0 ∧ total_tests = 0) then 20 else 0
  let base_score := tests_score + fix_quality_score + ci_bonus
  let speed_bonus : ℚ := if elapsed < 300 then 10 else 0
  let efficiency_penalty : ℚ := max 0 ((((retry_count : ℚ) + 1) - 20) * 2)
  round2 (max 0 (base_score + speed_bonus - efficiency_penalty))

/-- Embeds `analyze_agent.py` line 296: the deduplication key `(bug_type, file, line)`. -/
def fkey (f : FailureEvent) : String × String × Int := (f.bug_type, f.file, f.line)

/-- Embeds `analyze_agent.py` lines 293-300: the dedup loop with its `seen` set
(modelled as the list of keys inserted so far). -/
def dedupGo (seen : List (String × String × Int)) : List FailureEvent → List FailureEvent
  | [] => []
  | f :: rest =>
      if fkey f ∈ seen then dedupGo seen rest
      else f :: dedupGo (fkey f :: seen) rest

/-- Embeds `analyze_agent.py` lines 292-300: deduplicate by `(bug_type, file, line)`,
first occurrence wins. -/
def dedupFailures (l : List FailureEvent) : List FailureEvent := dedupGo [] l

/-- Result of the analysis subprocess I/O (pytest/jest/eslint invocation plus
parsing): the extracted pre-deduplication failure list and summary counters.
Passed to `analyze_agent` as an oracle because obtaining it invokes external
tools; `.error` is the caught exception of the `try` block. -/
structure AnalyzeOutcome where
  failures : List FailureEvent
  total_tests : ℕ
  tests_passed : ℕ
deriving DecidableEq

/-- Embeds `agents/analyze_agent.py`, `analyze_agent` (lines 183-341): short-circuit
when there is no working tree or the run already failed; otherwise record the
(deduplicated) failures and counters, or degrade to an empty result on a
tool-invocation error. -/
def analyze_agent (now : String) (res : Except String AnalyzeOutcome) (s : AgentState) : AgentState :=
  if s.clone_path = "" ∨ s.status = "failed" then s
  else
    let started : CICDEvent :=
      ⟨now, "analysis_started", "Running " ++ s.language ++ " tests in " ++ s.clone_path, "running"⟩
    match res with
    | .ok r =>
        let deduped := dedupFailures r.failures
        { s with
          failures := deduped
          total_tests := r.total_tests
          tests_passed := r.tests_passed
          tests_failed := deduped.length
          cicd_timeline := s.cicd_timeline ++
            [started,
             ⟨now, "analysis_complete",
              "Found " ++ toString deduped.length ++ " failure(s). " ++
                toString r.tests_passed ++ "/" ++ toString r.total_tests ++ " tests passed.",
              if deduped.length = 0 then "success" else "failure"⟩] }
    | .error e =>
        { s with
          failures := []
          total_tests := 0
          tests_passed := 0
          tests_failed := 0
          cicd_timeline := s.cicd_timeline ++ [started, ⟨now, "analysis_error", e, "failure"⟩]
          error_message := some e }

/-- Embeds `clone_agent.py`: outcome of the `git clone` subprocess plus language
detection (external I/O, passed as an oracle). -/
inductive CloneResult where
  | ok (tmp_dir language : String)
  | err (msg : String)
deriving DecidableEq

/-- Embeds `agents/clone_agent.py`, `clone_agent` (lines 56-145): on success record
the working tree and language; on any exception clear them, set
`status := "failed"` and store the error message. -/
def clone_agent (now : String) (res : CloneResult) (s : AgentState) : AgentState :=
  let started : CICDEvent := ⟨now, "clone_started", "Cloning " ++ s.repo_url, "running"⟩
  match res with
  | .ok tmp lang =>
      { s with
        clone_path := tmp
        language := lang
        cicd_timeline := s.cicd_timeline ++
          [started, ⟨now, "clone_success", "Repository cloned. Detected language: " ++ lang, "success"⟩]
        error_message := none }
  | .err msg =>
      { s with
        clone_path := ""
        language := "unknown"
        cicd_timeline := s.cicd_timeline ++ [started, ⟨now, "clone_failed", msg, "failure"⟩]
        status := "failed"
        error_message := some msg }

/-- Embeds `git_agent.py`, `_build_branch_name` (lines 35-43). -/
def build_branch_name (team_name leader_name : String) : String :=
  (team_name.toUpper.replace " " "_") ++ "_" ++ (leader_name.toUpper.replace " " "_") ++ "_AI_Fix"

/-- Embeds `git_agent.py`: outcome of the git commit/push subprocesses (external
I/O, passed as an oracle).  `failed` is the caught exception of the
`try` block. -/
inductive GitResult where
  | nothingToCommit
  | pushed (sha : String)
  | failed (msg : String)
deriving DecidableEq

/-- Embeds `agents/git_agent.py`, `git_agent` (lines 66-180): short-circuit when
there is no working tree or the run already failed; otherwise record the
branch name and the commit/push outcome. -/
def git_agent (now : String) (res : GitResult) (s : AgentState) : AgentState :=
  if s.clone_path = "" ∨ s.status = "failed" then s
  else
    let branch := build_branch_name s.team_name s.leader_name
    let started : CICDEvent := ⟨now, "git_started", "Creating branch: " ++ branch, "running"⟩
    match res with
    | .nothingToCommit =>
        { s with
          branch_name := branch
          commit_sha := ""
          cicd_timeline := s.cicd_timeline ++
            [started, ⟨now, "git_nothing_to_commit", "No file changes to commit", "success"⟩] }
    | .pushed sha =>
        { s with
          branch_name := branch
          commit_sha := sha
          cicd_timeline := s.cicd_timeline ++
            [started, ⟨now, "git_pushed", "Pushed fix(es) to branch " ++ branch, "success"⟩] }
    | .failed msg =>
        { s with
          branch_name := branch
          commit_sha := ""
          cicd_timeline := s.cicd_timeline ++ [started, ⟨now, "git_failed", msg, "failure"⟩]
          error_message := some msg }

/-- Embeds `agents/cicd_agent.py`, `cicd_agent` (lines 20-145): without a GitHub
token or commit SHA, simulate the CI outcome from the fix results
(lines 29-47, translated exactly); otherwise poll GitHub Actions — the
polling result is external I/O, abstracted as `remote_status`
(`"pending"`, `"success"` or `"failure"`, the only values lines 49-145
can produce). -/
def cicd_agent (now : String) (remote_status : String) (s : AgentState) : AgentState :=
  if s.github_token = "" ∨ s.commit_sha = "" then
    let applied := appliedCount s.fixes
    let ci_status := if 0 < applied ∧ 0 < s.failures.length then "success" else "failure"
    { s with
      cicd_status := ci_status
      cicd_timeline := s.cicd_timeline ++
        [⟨now, "cicd_simulated",
          "No GitHub token provided – CI/CD result inferred from fix results", ci_status⟩] }
  else
    { s with
      cicd_status := remote_status
      cicd_timeline := s.cicd_timeline ++
        [⟨now, "cicd_polling_started", "Polling GitHub Actions", "running"⟩] }

/-- Embeds `orchestrator.py`, `should_retry` (lines 30-48): the conditional edge
evaluated after `cicd_monitor`. -/
def should_retry (s : AgentState) : String :=
  if s.status = "failed" then "score"
  else if s.cicd_status = "success" then "score"
  else if s.retry_limit ≤ (s.retry_count : Int) then "score"
  else "analyze"

/-- Embeds `orchestrator.py`, `increment_retry` (lines 51-57): the node injected on
the retry path. -/
def increment_retry (s : AgentState) : AgentState :=
  { s with retry_count := s.retry_count + 1, fixes := [] }

/-- Embeds `orchestrator.py`, `run_pipeline` (lines 115-150): the fresh initial
state (the Python `score` dict omits three `ScoreBreakdown` keys; they are
zero-initialised here). -/
def initial_state (repo_url team_name leader_name openai_key github_token : String)
    (retry_limit : Int) (run_id started_at : String) : AgentState :=
  { repo_url := repo_url
    team_name := team_name
    leader_name := leader_name
    openai_key := openai_key
    retry_limit := retry_limit
    github_token := github_token
    branch_name := ""
    clone_path := ""
    language := "python"
    failures := []
    total_tests := 0
    tests_passed := 0
    tests_failed := 0
    fixes := []
    commit_sha := ""
    pr_url := ""
    cicd_timeline := []
    cicd_status := "pending"
    score := { tests_passed_pct := 0, fixes_applied := 0, fix_quality_score := 0,
               ci_success_bonus := 0, base_score := 0, speed_bonus := 0,
               efficiency_penalty := 0, total_score := 0 }
    retry_count := 0
    status := "running"
    error_message := none
    run_id := run_id
    started_at := started_at
    finished_at := ""
    duration_seconds := 0 }

/-- Embeds `fix_agent.py`, `_call_llm` (lines 28-55): the OpenAI call never raises;
the network/API interaction is external I/O passed in as `llmResult`
(`.ok` = the assistant response text, `.error` = the message of the caught
exception).  On an exception the function returns the placeholder response
of line 55. -/
def call_llm (llmResult : Except String String) : String :=
  match llmResult with
  | .ok content => content
  | .error exc => "---FIX_DESC---rule-based fix applied\n---FIXED_CODE---# LLM error: " ++ exc

/-- Split a character list around the first occurrence of `marker`,
returning `(before, after)`; `none` when the marker does not occur. -/
def splitAtSub (marker : List Char) : List Char → Option (List Char × List Char)
  | [] => if marker = [] then some ([], []) else none
  | c :: rest =>
      if marker.isPrefixOf (c :: rest) then some ([], (c :: rest).drop marker.length)
      else
        match splitAtSub marker rest with
        | some p => some (c :: p.1, p.2)
        | none => none

/-- Text strictly after the first occurrence of `marker`, when present. -/
def afterFirst (marker text : String) : Option String :=
  (splitAtSub marker.data text.data).map (fun p => String.mk p.2)

/-- Text strictly before the first occurrence of `marker` (the whole text
when the marker is absent). -/
def upToFirst (marker text : String) : String :=
  match splitAtSub marker.data text.data with
  | some p => String.mk p.1
  | none => text

/-- Python `str.strip()` (leading and trailing whitespace removed). -/
def pyStrip (s : String) : String :=
  String.mk (((s.data.dropWhile Char.isWhitespace).reverse.dropWhile Char.isWhitespace).reverse)

/-- Python `str.startswith(pre)`. -/
def pyStartsWith (s pre : String) : Bool := pre.data.isPrefixOf s.data

/-- Embeds `fix_agent.py`, `_parse_llm_response` (lines 58-64): the two `re.search`
patterns keep what follows the first `---FIX_DESC---` up to the next
`---FIXED_CODE---` (or the end), and what follows the first
`---FIXED_CODE---` to the end, both stripped. -/
def parse_llm_response (response : String) : String × String :=
  let fix_desc :=
    match afterFirst "---FIX_DESC---" response with
    | some after => pyStrip (upToFirst "---FIXED_CODE---" after)
    | none => "apply automated fix"
  let fixed_code :=
    match afterFirst "---FIXED_CODE---" response with
    | some after => pyStrip after
    | none => ""
  (fix_desc, fixed_code)

/-- Embeds `fix_agent.py` line 87: `re.sub(r"^\t+", lambda m: "    " * len(m.group()), line)`
— every tab of the leading tab run becomes four spaces; the rest of the
line is untouched. -/
def pyTabSub : List Char → List Char
  | [] => []
  | c :: rest => if c = '\t' then ' ' :: ' ' :: ' ' :: ' ' :: pyTabSub rest else c :: rest

/-- Number of leading tab characters of a line. -/
def leadingTabs (l : List Char) : ℕ := (l.takeWhile (fun c => c == '\t')).length

/-- The transform `pyTabSub` lifted to `String` (lines are strings in the file model). -/
def tabFixLine (s : String) : String := String.mk (pyTabSub s.data)

/-- Python `str.rstrip()` (trailing whitespace removed). -/
def rstrip (s : String) : String :=
  String.mk (s.data.reverse.dropWhile Char.isWhitespace).reverse

/-- Embeds `fix_agent.py`, `_rule_based_fix` (lines 80-95): deterministic fallback
table — INDENTATION rewrites the failing line's leading tabs, IMPORT
comments the failing line out, anything else is an identity rewrite. -/
def rule_based_fix (failure : FailureEvent) (code_lines : List String) : String × List String :=
  let line_idx : Int := failure.line - 1
  if failure.bug_type = "INDENTATION" ∧ 0 ≤ line_idx ∧ line_idx < (code_lines.length : Int) then
    ("fix indentation to use 4 spaces consistently",
     code_lines.set line_idx.toNat (tabFixLine (code_lines.getD line_idx.toNat "")))
  else if failure.bug_type = "IMPORT" ∧ 0 ≤ line_idx ∧ line_idx < (code_lines.length : Int) then
    ("remove the unused import statement",
     code_lines.set line_idx.toNat
       ("# " ++ rstrip (code_lines.getD line_idx.toNat "") ++ "  # removed unused import\n"))
  else ("apply automated fix", code_lines)

/-- Python `str.splitlines(keepends=True)` restricted to `\n` boundaries
(the only separator arising in this code). -/
def splitKeepGo (acc : List Char) : List Char → List (List Char)
  | [] => if acc = [] then [] else [acc.reverse]
  | c :: rest =>
      if c = '\n' then (('\n' :: acc).reverse) :: splitKeepGo [] rest
      else splitKeepGo (c :: acc) rest

/-- The splitter `splitKeepGo` lifted to `String`. -/
def splitlinesKeepends (s : String) : List String :=
  (splitKeepGo [] s.data).map String.mk

/-- Python slice-index normalisation: negative indices count from the end,
nonnegative ones are clipped to the length. -/
def pyIdx (len : ℕ) (i : Int) : ℕ :=
  (max 0 (if i < 0 then (len : Int) + i else min (len : Int) i)).toNat

/-- Python `l[start:stop] = repl` (slice assignment). -/
def pySetSlice {α : Type} (l : List α) (start stop : Int) (repl : List α) : List α :=
  let a := pyIdx l.length start
  let b := max a (pyIdx l.length stop)
  l.take a ++ repl ++ l.drop b

/-- File-system interaction of `_apply_fix` (external I/O, passed as an
oracle): whether the failure's path resolves to an existing file (after the
`Path.exists` check and the `rglob` filename fallback of lines 119-125),
the resolved file's contents, and whether writing raises. -/
structure FsOracle where
  resolved : Bool
  lines : List String
  writeError : Option String
deriving DecidableEq

/-- Embeds `fix_agent.py` lines 183-203: the rule-based fallback tail of
`_apply_fix` — transform, write, report.  Also returns the lines actually
written (`none` when the write failed). -/
def fallbackWrite (fs : FsOracle) (failure : FailureEvent) (original_lines : List String) :
    FixRecord × Option (List String) :=
  let rb := rule_based_fix failure original_lines
  match fs.writeError with
  | none =>
      ({ bug_type := failure.bug_type, file := failure.file, line := failure.line,
         fix_description := rb.1, patch := String.join rb.2, status := "applied" }, some rb.2)
  | some exc =>
      ({ bug_type := failure.bug_type, file := failure.file, line := failure.line,
         fix_description := "rule-based fix error: " ++ exc, patch := "", status := "failed" }, none)

/-- Embeds `fix_agent.py`, `_apply_fix` (lines 112-203): generate and apply one
fix.  The prompt construction (lines 142-154) only feeds the external
delegate call, whose reply is the `llmResult` oracle, and is therefore not
modelled.  Besides the `FixRecord`, the model returns the lines written to
disk (`none` when nothing was written). -/
def apply_fix (fs : FsOracle) (llmResult : Except String String) (failure : FailureEvent)
    (openai_key : String) : FixRecord × Option (List String) :=
  if fs.resolved = false then
    ({ bug_type := failure.bug_type, file := failure.file, line := failure.line,
       fix_description := "file not found – skipped", patch := "", status := "failed" }, none)
  else
    let original_lines := fs.lines
    if openai_key ≠ "" ∧ pyStartsWith openai_key "sk-" then
      let start : Int := max 0 (failure.line - 11)
      let endIdx : Int := min (original_lines.length : Int) (failure.line + 10)
      let parsed := parse_llm_response (call_llm llmResult)
      if parsed.2 ≠ "" then
        let fixed_lines := pySetSlice original_lines start endIdx (splitlinesKeepends parsed.2)
        match fs.writeError with
        | none =>
            ({ bug_type := failure.bug_type, file := failure.file, line := failure.line,
               fix_description := parsed.1, patch := parsed.2, status := "applied" },
             some fixed_lines)
        | some exc =>
            ({ bug_type := failure.bug_type, file := failure.file, line := failure.line,
               fix_description := "LLM fix write error: " ++ exc, patch := "", status := "failed" },
             none)
      else fallbackWrite fs failure original_lines
    else fallbackWrite fs failure original_lines

/-- Embeds `agents/fix_agent.py`, `fix_agent` (lines 210-250): short-circuit when
there are no failures or the run already failed; otherwise apply one fix
per failure, in order. -/
def fix_agent (now : String) (fs : FailureEvent → FsOracle)
    (llm : FailureEvent → Except String String) (s : AgentState) : AgentState :=
  if s.failures = [] ∨ s.status = "failed" then s
  else
    let fixes := s.failures.map (fun f => (apply_fix (fs f) (llm f) f s.openai_key).1)
    let applied := appliedCount fixes
    { s with
      fixes := fixes
      cicd_timeline := s.cicd_timeline ++
        [⟨now, "fix_started",
          "Generating AI fixes for " ++ toString s.failures.length ++ " failure(s)", "running"⟩,
         ⟨now, "fix_complete",
          "Applied " ++ toString applied ++ "/" ++ toString fixes.length ++ " fix(es) successfully",
          if 0 < applied then "success" else "failure"⟩] }

/-- Embeds `main.py` lines 51-57: the in-memory pipeline state shared by the
FastAPI routes (`data` holds the last finished run's final state). -/
structure PipelineServerState where
  status : String
  run_id : Option String
  data : Option AgentState
  error : Option String
deriving DecidableEq

/-- Embeds `main.py` lines 64-70: the trigger request body. -/
structure RunAgentRequest where
  repo_url : String
  team_name : String
  leader_name : String
  openai_key : String
  github_token : String
  retry_limit : Int
deriving DecidableEq

/-- Outcome of `POST /api/run-agent`: either the 409 `HTTPException` or the
acknowledgment body `(message, status)`. -/
inductive RunAgentOutcome where
  | conflict (status_code : ℕ) (detail : String)
  | accepted (message status : String)
deriving DecidableEq

/-- Embeds `main.py`, `run_agent` (lines 123-145): under the pipeline lock, reject
with 409 when a run is in the `"running"` state (leaving the shared state
untouched), otherwise reset the shared state to `"queued"`, schedule the
background task and acknowledge. -/
def run_agent (req : RunAgentRequest) (ps : PipelineServerState) :
    RunAgentOutcome × PipelineServerState :=
  if ps.status = "running" then
    (.conflict 409 "Pipeline is already running. Wait for it to complete.", ps)
  else
    let _ := req
    (.accepted "Pipeline started successfully" "queued",
     { status := "queued", run_id := none, data := none, error := none })

/-- The LangGraph nodes of `orchestrator.py`, `build_graph` (lines 64-96),
plus the terminal `END`. -/
inductive Node where
  | clone
  | analyze
  | fix
  | git
  | cicd
  | increment_retry
  | score
  | done
deriving DecidableEq

/-- Embeds `orchestrator.py` lines 88-93: the conditional edge after
`cicd_monitor`, applied to the node's output state (`should_retry` only
ever returns `"score"` or `"analyze"`; `"analyze"` routes through the
`increment_retry` node). -/
def routeOf (s : AgentState) : Node :=
  if should_retry s = "score" then Node.score else Node.increment_retry

/-- One step of the compiled graph of `orchestrator.py`, `build_graph`:
each constructor fires one node on the current state, with that node's
external I/O (timestamps, subprocess and network results) supplied as
oracle arguments, and moves along the graph's edges. -/
inductive Step : Node × AgentState → Node × AgentState → Prop where
  | clone (t : String) (res : CloneResult) (s : AgentState) :
      Step (Node.clone, s) (Node.analyze, clone_agent t res s)
  | analyze (t : String) (res : Except String AnalyzeOutcome) (s : AgentState) :
      Step (Node.analyze, s) (Node.fix, analyze_agent t res s)
  | fix (t : String) (fs : FailureEvent → FsOracle)
      (llm : FailureEvent → Except String String) (s : AgentState) :
      Step (Node.fix, s) (Node.git, fix_agent t fs llm s)
  | git (t : String) (res : GitResult) (s : AgentState) :
      Step (Node.git, s) (Node.cicd, git_agent t res s)
  | cicd (t : String) (remote : String) (s : AgentState) :
      Step (Node.cicd, s) (routeOf (cicd_agent t remote s), cicd_agent t remote s)
  | increment (s : AgentState) :
      Step (Node.increment_retry, s) (Node.analyze, increment_retry s)
  | score (t : String) (s : AgentState) :
      Step (Node.score, s) (Node.done, score_agent t s)

/-- A pipeline step together with the observations needed for claim C6's
second part: every fired CI-monitor step reports a CI failure, and the
clone step does not fail the run. -/
def StepF (a b : Node × AgentState) : Prop :=
  Step a b ∧ (a.1 = Node.cicd → b.2.cicd_status = "failure")
    ∧ (a.1 = Node.clone → b.2.status ≠ "failed")

/-- Inductive invariant for C6's bound: the retry budget is constant, the
retry counter stays within it, and on entry to the `increment_retry` node
it is strictly below it. -/
def RetryInv (L : Int) (p : Node × AgentState) : Prop :=
  p.2.retry_limit = L ∧ (p.2.retry_count : Int) ≤ L
    ∧ (p.1 = Node.increment_retry → (p.2.retry_count : Int) < L)

/-- Inductive invariant for C6's exactness part, along runs whose CI
outcome is a failure on every cycle: additionally the run status stays
`"running"` before the terminal node, and the counter equals the budget
once the score node is reached. -/
def RunInv (L : Int) (p : Node × AgentState) : Prop :=
  p.2.retry_limit = L ∧ (p.2.retry_count : Int) ≤ L
    ∧ (p.1 ≠ Node.done → p.2.status = "running")
    ∧ (p.1 = Node.increment_retry → (p.2.retry_count : Int) < L)
    ∧ (p.1 = Node.score ∨ p.1 = Node.done → (p.2.retry_count : Int) = L)

/-!  Theorems.  -/

theorem ratFloor_eq_floor (q : ℚ) : ratFloor q = ⌊q⌋ := Rat.floor_def.symm

theorem round2_eq (q : ℚ) : round2 q = (⌊q * 100 + 1 / 2⌋ : ℚ) / 100 := by
  rw [round2, ratFloor_eq_floor]

theorem round2_le_round2 {q r : ℚ} (h : q ≤ r) : round2 q ≤ round2 r := by
  rw [round2_eq, round2_eq]
  have : (⌊q * 100 + 1 / 2⌋ : ℤ) ≤ ⌊r * 100 + 1 / 2⌋ := Int.floor_mono (by linarith)
  have : ((⌊q * 100 + 1 / 2⌋ : ℤ) : ℚ) ≤ ((⌊r * 100 + 1 / 2⌋ : ℤ) : ℚ) := by exact_mod_cast this
  linarith

theorem round2_110 : round2 110 = 110 := by rw [round2_eq]; norm_num

theorem ciBonusComponent_eq (ci : String) (fc tt : ℕ) :
    ciBonusComponent ci fc tt = if ci = "success" ∨ (fc = 0 ∧ tt = 0) then 20 else 0 := by
  unfold ciBonusComponent
  split_ifs with h1 h2 h3 h4 h5 <;> tauto

theorem testsScoreOf_le {tt tp : ℕ} (fails : List FailureEvent) (h : tp ≤ tt) :
    testsScoreOf tt tp fails ≤ 40 := by
  unfold testsScoreOf
  split_ifs with h1 h2
  · have htt : (0 : ℚ) < (tt : ℚ) := by exact_mod_cast h1
    have : (tp : ℚ) / (tt : ℚ) ≤ 1 := by
      rw [div_le_one htt]; exact_mod_cast h
    nlinarith
  · norm_num
  · norm_num

theorem fixQualityComponent_le {a fc : ℕ} (h : a ≤ fc) :
    fixQualityComponent a fc ≤ 40 := by
  unfold fixQualityComponent
  split_ifs with h1
  · have hfc : (0 : ℚ) < (fc : ℚ) := by exact_mod_cast h1
    have : (a : ℚ) / (fc : ℚ) ≤ 1 := by
      rw [div_le_one hfc]; exact_mod_cast h
    nlinarith
  · norm_num

theorem ciBonusComponent_le (ci : String) (fc tt : ℕ) : ciBonusComponent ci fc tt ≤ 20 := by
  unfold ciBonusComponent; split_ifs <;> norm_num

theorem speedBonusComponent_le (d : ℚ) : speedBonusComponent d ≤ 10 := by
  unfold speedBonusComponent; split_ifs <;> norm_num

theorem efficiencyPenaltyComponent_nonneg (r : ℕ) : 0 ≤ efficiencyPenaltyComponent r :=
  le_max_left 0 _

/-- C1.  The score step is a pure function of `(total_tests, tests_passed,
failure count, applied-fix count, ci_status, elapsed seconds, retry_count)`:
its total equals the claim's composite formula (`specTotalScore`, which
spells out tests_score, fix_quality_score, ci_bonus, base_score,
speed_bonus and efficiency_penalty exactly as the claim states them), the
stored ci-bonus, speed-bonus and efficiency-penalty fields equal the
claimed component formulas, and — for inputs where at most `total_tests`
tests pass and at most `failure count` fixes are applied — the total is at
most 110. -/
theorem score_step_is_claimed_pure_function (t : String) (s : AgentState) :
    (score_agent t s).score.total_score
      = specTotalScore s.total_tests s.tests_passed s.failures.length
          (appliedCount s.fixes) s.cicd_status s.duration_seconds s.retry_count
    ∧ (score_agent t s).score.ci_success_bonus
      = (if s.cicd_status = "success" ∨ (s.failures.length = 0 ∧ s.total_tests = 0)
          then (20 : ℚ) else 0)
    ∧ (score_agent t s).score.speed_bonus = (if s.duration_seconds < 300 then (10 : ℚ) else 0)
    ∧ (score_agent t s).score.efficiency_penalty
      = max 0 ((((s.retry_count : ℚ) + 1) - 20) * 2)
    ∧ (s.tests_passed ≤ s.total_tests → appliedCount s.fixes ≤ s.failures.length →
        (score_agent t s).score.total_score ≤ 110) := by
  refine ⟨?_, ?_, ?_, ?_, ?_⟩
  · simp only [score_agent, specTotalScore, ciBonusComponent_eq, speedBonusComponent,
      efficiencyPenaltyComponent, testsScoreOf, fixQualityComponent]
  · simp only [score_agent, ciBonusComponent_eq]
  · simp only [score_agent, speedBonusComponent]
  · simp only [score_agent, efficiencyPenaltyComponent]
  · intro h1 h2
    have e1 := testsScoreOf_le s.failures h1
    have e2 := fixQualityComponent_le h2
    have e3 := ciBonusComponent_le s.cicd_status s.failures.length s.total_tests
    have e4 := speedBonusComponent_le s.duration_seconds
    have e5 := efficiencyPenaltyComponent_nonneg s.retry_count
    have hb : max 0 (testsScoreOf s.total_tests s.tests_passed s.failures
        + fixQualityComponent (appliedCount s.fixes) s.failures.length
        + ciBonusComponent s.cicd_status s.failures.length s.total_tests
        + speedBonusComponent s.duration_seconds
        - efficiencyPenaltyComponent s.retry_count) ≤ 110 := by
      apply max_le <;> linarith
    calc (score_agent t s).score.total_score
        = round2 (max 0 (testsScoreOf s.total_tests s.tests_passed s.failures
            + fixQualityComponent (appliedCount s.fixes) s.failures.length
            + ciBonusComponent s.cicd_status s.failures.length s.total_tests
            + speedBonusComponent s.duration_seconds
            - efficiencyPenaltyComponent s.retry_count)) := by
          simp only [score_agent]
      _ ≤ round2 110 := round2_le_round2 hb
      _ = 110 := round2_110

/-- Witness for C1: the claimed bound holds at the pipeline's fresh initial
state (whose counters trivially satisfy the domain hypotheses). -/
theorem score_step_is_claimed_pure_function_witness :
    (score_agent "t0"
        (initial_state "https://github.com/a/b" "TEAM" "LEAD" "" "" 5 "rid" "ts")).score.total_score
      ≤ 110 :=
  (score_step_is_claimed_pure_function "t0"
      (initial_state "https://github.com/a/b" "TEAM" "LEAD" "" "" 5 "rid" "ts")).2.2.2.2
    (by decide) (by decide)

/-- C2.  The decision function after the CI-monitor step routes in exactly
the claimed precedence order — `status = "failed"` first, then a successful
CI outcome, then an exhausted retry budget, and otherwise retry — and the
retry node increments `retry_count` by exactly 1 and resets the fix list to
empty. -/
theorem verify_decision_precedence :
    (∀ s : AgentState, s.status = "failed" → should_retry s = "score")
    ∧ (∀ s : AgentState, s.status ≠ "failed" → s.cicd_status = "success" →
        should_retry s = "score")
    ∧ (∀ s : AgentState, s.status ≠ "failed" → s.cicd_status ≠ "success" →
        s.retry_limit ≤ (s.retry_count : Int) → should_retry s = "score")
    ∧ (∀ s : AgentState, s.status ≠ "failed" → s.cicd_status ≠ "success" →
        (s.retry_count : Int) < s.retry_limit → should_retry s = "analyze")
    ∧ (∀ s : AgentState, (increment_retry s).retry_count = s.retry_count + 1
        ∧ (increment_retry s).fixes = []) := by
  refine ⟨?_, ?_, ?_, ?_, ?_⟩
  · intro s h; simp [should_retry, h]
  · intro s h1 h2; simp [should_retry, h1, h2]
  · intro s h1 h2 h3; simp [should_retry, h1, h2, h3]
  · intro s h1 h2 h3; simp [should_retry, h1, h2, not_le.mpr h3]
  · intro s; exact ⟨rfl, rfl⟩

/-- Witness for C2: at a fresh state (running, CI pending, 0 of 5 retries
used) the decision is `"analyze"`, and the retry node adds exactly one
retry and clears the fixes. -/
theorem verify_decision_precedence_witness :
    should_retry (initial_state "u" "T" "L" "" "" 5 "r" "ts") = "analyze"
    ∧ (increment_retry (initial_state "u" "T" "L" "" "" 5 "r" "ts")).retry_count
        = (initial_state "u" "T" "L" "" "" 5 "r" "ts").retry_count + 1
    ∧ (increment_retry (initial_state "u" "T" "L" "" "" 5 "r" "ts")).fixes = [] :=
  ⟨verify_decision_precedence.2.2.2.1 _ (by decide) (by decide) (by decide),
   (verify_decision_precedence.2.2.2.2 _).1,
   (verify_decision_precedence.2.2.2.2 _).2⟩

/-- C4.  The score step overwrites `status` from the computed total alone:
`"success"` exactly when the total is at least 50, `"partial"` otherwise,
and never `"failed"` — for every input state, whatever status it carried. -/
theorem score_overwrites_status (t : String) (s : AgentState) :
    ((score_agent t s).status = "success" ↔ 50 ≤ (score_agent t s).score.total_score)
    ∧ ((score_agent t s).status = "partial" ↔ ¬ 50 ≤ (score_agent t s).score.total_score)
    ∧ (score_agent t s).status ≠ "failed" := by
  simp only [score_agent]
  refine ⟨?_, ?_, ?_⟩ <;> split_ifs with h <;> simp [h]

/-- C10.  A trigger while a run is active (server status `"running"`) is
rejected with the 409 conflict and leaves the shared pipeline state exactly
as it was; a trigger while no run is active is accepted with the
acknowledgment body. -/
theorem trigger_conflict_or_ack :
    (∀ (req : RunAgentRequest) (ps : PipelineServerState), ps.status = "running" →
        run_agent req ps
          = (RunAgentOutcome.conflict 409 "Pipeline is already running. Wait for it to complete.",
             ps))
    ∧ (∀ (req : RunAgentRequest) (ps : PipelineServerState), ps.status ≠ "running" →
        (run_agent req ps).1
          = RunAgentOutcome.accepted "Pipeline started successfully" "queued") := by
  constructor
  · intro req ps h; simp [run_agent, h]
  · intro req ps h; simp [run_agent, h]

/-- Witness for C10: a concrete busy server rejects and is left unchanged;
a concrete idle server accepts. -/
theorem trigger_conflict_or_ack_witness :
    run_agent ⟨"u", "T", "L", "", "", 5⟩ ⟨"running", some "rid", none, some "e"⟩
      = (RunAgentOutcome.conflict 409 "Pipeline is already running. Wait for it to complete.",
         ⟨"running", some "rid", none, some "e"⟩)
    ∧ (run_agent ⟨"u", "T", "L", "", "", 5⟩ ⟨"idle", none, none, none⟩).1
      = RunAgentOutcome.accepted "Pipeline started successfully" "queued" :=
  ⟨trigger_conflict_or_ack.1 _ _ rfl, trigger_conflict_or_ack.2 _ _ (by decide)⟩

theorem cicd_agent_preserves_run_status (t r : String) (s : AgentState) :
    (cicd_agent t r s).status = s.status := by
  unfold cicd_agent; split_ifs <;> rfl

/-- C3 counterexample.  A concrete run whose clone step fails: analyze,
fix and git skip, the CI-monitor simulates a failed CI, `should_retry`
skips to scoring — and the score step then reports `"success"` (an empty
failure list and no tests score 110 points), not `"failed"`, refuting the
claim's final conjunct. -/
theorem clone_failure_final_status_counterexample :
    (score_agent "t6"
      (cicd_agent "t5" "pending"
        (git_agent "t4" GitResult.nothingToCommit
          (fix_agent "t3" (fun _ => ⟨false, [], none⟩) (fun _ => Except.error "e")
            (analyze_agent "t2" (Except.error "no tests")
              (clone_agent "t1" (CloneResult.err "git clone failed (exit code 128)")
                (initial_state "https://github.com/a/b" "TEAM" "LEAD" "" "" 5 "rid" "ts"))))))).status
      = "success"
    ∧ (clone_agent "t1" (CloneResult.err "git clone failed (exit code 128)")
        (initial_state "https://github.com/a/b" "TEAM" "LEAD" "" "" 5 "rid" "ts")).status
      = "failed" := by
  constructor
  · norm_num [score_agent, cicd_agent, git_agent, fix_agent, analyze_agent, clone_agent,
      initial_state, appliedCount, testsScoreOf, testsPctOf, fixQualityComponent,
      ciBonusComponent, speedBonusComponent, efficiencyPenaltyComponent, round2_eq]
  · rfl

/-- C3 amended.  A clone failure sets `status := "failed"` and records the
error; the analyze, fix and git steps are then strict no-ops and the
decision edge skips to scoring — but the CI-monitor step still appends a
timeline event (on every input), and the score step overwrites the status,
so the final state reports `"success"` or `"partial"`, never `"failed"`. -/
theorem clone_failure_skips_to_scoring :
    (∀ (t msg : String) (s : AgentState),
        (clone_agent t (CloneResult.err msg) s).status = "failed"
        ∧ (clone_agent t (CloneResult.err msg) s).error_message = some msg)
    ∧ (∀ (t : String) (r : Except String AnalyzeOutcome) (s : AgentState),
        s.status = "failed" → analyze_agent t r s = s)
    ∧ (∀ (t : String) (fs : FailureEvent → FsOracle)
        (llm : FailureEvent → Except String String) (s : AgentState),
        s.status = "failed" → fix_agent t fs llm s = s)
    ∧ (∀ (t : String) (r : GitResult) (s : AgentState),
        s.status = "failed" → git_agent t r s = s)
    ∧ (∀ (t r : String) (s : AgentState),
        (cicd_agent t r s).cicd_timeline.length = s.cicd_timeline.length + 1)
    ∧ (∀ (t r : String) (s : AgentState), s.status = "failed" →
        should_retry (cicd_agent t r s) = "score")
    ∧ (∀ (t : String) (s : AgentState), (score_agent t s).status ≠ "failed") := by
  refine ⟨?_, ?_, ?_, ?_, ?_, ?_, ?_⟩
  · intro t msg s; exact ⟨rfl, rfl⟩
  · intro t r s h; simp [analyze_agent, h]
  · intro t fs llm s h; simp [fix_agent, h]
  · intro t r s h; simp [git_agent, h]
  · intro t r s; unfold cicd_agent; split_ifs <;> simp
  · intro t r s h; simp [should_retry, cicd_agent_preserves_run_status, h]
  · intro t s; simp only [score_agent]; split_ifs <;> simp

/-- Witness for the amended C3: at a concrete clone-failed state the
analyze step is a strict no-op and the score step does not report
`"failed"`. -/
theorem clone_failure_skips_to_scoring_witness :
    analyze_agent "t2" (Except.error "no tests")
        (clone_agent "t1" (CloneResult.err "boom")
          (initial_state "u" "T" "L" "" "" 5 "r" "ts"))
      = clone_agent "t1" (CloneResult.err "boom")
          (initial_state "u" "T" "L" "" "" 5 "r" "ts")
    ∧ (score_agent "t6"
        (clone_agent "t1" (CloneResult.err "boom")
          (initial_state "u" "T" "L" "" "" 5 "r" "ts"))).status ≠ "failed" :=
  ⟨clone_failure_skips_to_scoring.2.1 "t2" (Except.error "no tests") _ (by decide),
   clone_failure_skips_to_scoring.2.2.2.2.2.2 "t6" _⟩

/-- C9 counterexample.  The line `"\ta\tb"` begins with one tab
(`N = 1 ≥ 1`), yet the INDENTATION fallback transform leaves the interior
tab in place: the result `"    a\tb"` does not contain zero tab
characters, refuting the claim as stated. -/
theorem indentation_interior_tab_counterexample :
    leadingTabs "\ta\tb".data = 1
    ∧ pyTabSub "\ta\tb".data = "    a\tb".data
    ∧ '\t' ∈ pyTabSub "\ta\tb".data := by decide

/-- C9 amended.  For every line beginning with `N ≥ 1` tabs, the
INDENTATION fallback yields `4 × N` leading spaces followed by the
remainder of the line (everything after the leading tab run) unchanged;
the result contains a tab exactly when that remainder does. -/
theorem indentation_fallback_transform (l : List Char) (_h : 1 ≤ leadingTabs l) :
    pyTabSub l
      = List.replicate (4 * leadingTabs l) ' ' ++ l.dropWhile (fun c => c == '\t')
    ∧ ('\t' ∈ pyTabSub l ↔ '\t' ∈ l.dropWhile (fun c => c == '\t')) := by
  clear _h
  have key : pyTabSub l
      = List.replicate (4 * leadingTabs l) ' ' ++ l.dropWhile (fun c => c == '\t') := by
    induction l with
    | nil => simp [pyTabSub, leadingTabs]
    | cons c rest ih =>
        by_cases hc : c = '\t'
        · subst hc
          have h1 : leadingTabs ('\t' :: rest) = leadingTabs rest + 1 := by
            simp [leadingTabs, List.takeWhile_cons]
          have h2 : List.dropWhile (fun c => c == '\t') ('\t' :: rest)
              = rest.dropWhile (fun c => c == '\t') := by
            simp [List.dropWhile_cons]
          rw [pyTabSub, if_pos rfl, h1, h2, Nat.mul_succ, Nat.add_comm,
            List.replicate_add, ih]
          rfl
        · have hb : (c == '\t') = false := by simpa using hc
          have h1 : leadingTabs (c :: rest) = 0 := by
            simp [leadingTabs, List.takeWhile_cons, hb]
          have h2 : List.dropWhile (fun c => c == '\t') (c :: rest) = c :: rest := by
            simp [List.dropWhile_cons, hb]
          rw [pyTabSub, if_neg hc, h1, h2]
          rfl
  refine ⟨key, ?_⟩
  rw [key]
  constructor
  · intro hm
    rcases List.mem_append.mp hm with hm | hm
    · exact absurd (List.eq_of_mem_replicate hm) (by decide)
    · exact hm
  · intro hm
    exact List.mem_append.mpr (Or.inr hm)

/-- Witness for the amended C9: the line `"\tx"` has one leading tab; the
transform yields four leading spaces and the unchanged remainder, with no
tab left (the remainder has none). -/
theorem indentation_fallback_transform_witness :
    1 ≤ leadingTabs "\tx".data
    ∧ (pyTabSub "\tx".data
        = List.replicate (4 * leadingTabs "\tx".data) ' '
            ++ "\tx".data.dropWhile (fun c => c == '\t')
      ∧ ('\t' ∈ pyTabSub "\tx".data ↔ '\t' ∈ "\tx".data.dropWhile (fun c => c == '\t'))) :=
  ⟨by decide, indentation_fallback_transform "\tx".data (by decide)⟩

/-- C5 / code bug.  With a resolvable file, a well-formed `sk-` credential
and a delegate call that raises, `_call_llm`'s placeholder response has a
non-empty `FIXED_CODE` section (`# LLM error: …`), so `_apply_fix` treats
it as a usable delegate reply: it splices the error text over the whole
±10-line context window (here the entire 3-line file), writes it to disk,
and reports `status = "applied"` with the description "rule-based fix
applied" — while the deterministic rule-based fallback, which the claim
(and the code's own fallback wording) prescribe, is never executed and
would instead have rewritten only the failing line's leading tab. -/
theorem llm_error_placeholder_spliced :
    apply_fix ⟨true, ["def f():\n", "\tx = 1\n", "\treturn x\n"], none⟩
        (Except.error "APIConnectionError")
        ⟨"INDENTATION", "src/app.py", 2, "IndentationError: expected an indented block"⟩
        "sk-test"
      = ({ bug_type := "INDENTATION", file := "src/app.py", line := 2,
           fix_description := "rule-based fix applied",
           patch := "# LLM error: APIConnectionError",
           status := "applied" },
         some ["# LLM error: APIConnectionError"])
    ∧ (rule_based_fix
          ⟨"INDENTATION", "src/app.py", 2, "IndentationError: expected an indented block"⟩
          ["def f():\n", "\tx = 1\n", "\treturn x\n"]).2
      = ["def f():\n", "    x = 1\n", "\treturn x\n"] := by
  constructor <;> decide

theorem dedupGo_sublist (seen : List (String × String × Int)) (l : List FailureEvent) :
    (dedupGo seen l).Sublist l := by
  induction l generalizing seen with
  | nil => simp [dedupGo]
  | cons f rest ih =>
      by_cases h : fkey f ∈ seen
      · rw [dedupGo, if_pos h]
        exact (ih seen).cons f
      · rw [dedupGo, if_neg h]
        exact (ih (fkey f :: seen)).cons₂ f

theorem dedupGo_key_not_seen {seen : List (String × String × Int)}
    {l : List FailureEvent} {f : FailureEvent} (hf : f ∈ dedupGo seen l) :
    fkey f ∉ seen := by
  induction l generalizing seen with
  | nil => simp [dedupGo] at hf
  | cons g rest ih =>
      by_cases h : fkey g ∈ seen
      · rw [dedupGo, if_pos h] at hf
        exact ih hf
      · rw [dedupGo, if_neg h] at hf
        rcases List.mem_cons.mp hf with he | hm
        · subst he; exact h
        · intro hin
          exact ih hm (List.mem_cons_of_mem _ hin)

theorem dedupGo_pairwise (seen : List (String × String × Int)) (l : List FailureEvent) :
    (dedupGo seen l).Pairwise (fun a b => fkey a ≠ fkey b) := by
  induction l generalizing seen with
  | nil => simp [dedupGo]
  | cons g rest ih =>
      by_cases h : fkey g ∈ seen
      · rw [dedupGo, if_pos h]; exact ih seen
      · rw [dedupGo, if_neg h]
        refine List.Pairwise.cons ?_ (ih (fkey g :: seen))
        intro b hb he
        exact dedupGo_key_not_seen hb (he ▸ List.mem_cons_self _ _)

theorem dedupGo_first_occurrence {seen : List (String × String × Int)}
    {l : List FailureEvent} {f : FailureEvent} (hf : f ∈ dedupGo seen l) :
    l.find? (fun g => decide (fkey g = fkey f)) = some f := by
  induction l generalizing seen with
  | nil => simp [dedupGo] at hf
  | cons g rest ih =>
      by_cases h : fkey g ∈ seen
      · rw [dedupGo, if_pos h] at hf
        have hne : fkey g ≠ fkey f := by
          intro he
          exact dedupGo_key_not_seen hf (he ▸ h)
        rw [List.find?_cons_of_neg _ (by simpa using hne)]
        exact ih hf
      · rw [dedupGo, if_neg h] at hf
        rcases List.mem_cons.mp hf with he | hm
        · subst he
          rw [List.find?_cons_of_pos _ (by simp)]
        · have hnot := dedupGo_key_not_seen hm
          have hne : fkey g ≠ fkey f := by
            intro he
            exact hnot (he ▸ List.mem_cons_self _ _)
          rw [List.find?_cons_of_neg _ (by simpa using hne)]
          exact ih hm

theorem dedupGo_complete {seen : List (String × String × Int)}
    {l : List FailureEvent} {g : FailureEvent} (hg : g ∈ l) (hs : fkey g ∉ seen) :
    ∃ f ∈ dedupGo seen l, fkey f = fkey g := by
  induction l generalizing seen with
  | nil => simp at hg
  | cons a rest ih =>
      by_cases h : fkey a ∈ seen
      · rw [dedupGo, if_pos h]
        rcases List.mem_cons.mp hg with he | hm
        · exact absurd (he ▸ hs) (fun hn => hn h)
        · exact ih hm hs
      · rw [dedupGo, if_neg h]
        rcases List.mem_cons.mp hg with he | hm
        · exact ⟨a, List.mem_cons_self _ _, by rw [he]⟩
        · by_cases hk : fkey g = fkey a
          · exact ⟨a, List.mem_cons_self _ _, hk.symm⟩
          · have hs2 : fkey g ∉ fkey a :: seen := by
              intro hin
              rcases List.mem_cons.mp hin with h1 | h2
              · exact hk h1
              · exact hs h2
            obtain ⟨f, hf, hfe⟩ := ih hm hs2
            exact ⟨f, List.mem_cons_of_mem _ hf, hfe⟩

/-- C7.  For every extracted pre-deduplication failure sequence, the
failure list produced by the analyze step has pairwise-distinct
`(bug_type, file, line)` keys, is a subsequence of the input (so kept
entries stay in their original relative order), keeps exactly the first
occurrence of each key, and loses no key. -/
theorem analyze_failures_deduplicated (t : String) (r : AnalyzeOutcome) (s : AgentState)
    (h1 : s.clone_path ≠ "") (h2 : s.status ≠ "failed") :
    ((analyze_agent t (Except.ok r) s).failures).Pairwise (fun a b => fkey a ≠ fkey b)
    ∧ ((analyze_agent t (Except.ok r) s).failures).Sublist r.failures
    ∧ (∀ f ∈ (analyze_agent t (Except.ok r) s).failures,
        r.failures.find? (fun g => decide (fkey g = fkey f)) = some f)
    ∧ (∀ g ∈ r.failures,
        ∃ f ∈ (analyze_agent t (Except.ok r) s).failures, fkey f = fkey g) := by
  have he : (analyze_agent t (Except.ok r) s).failures = dedupGo [] r.failures := by
    simp [analyze_agent, h1, h2, dedupFailures]
  rw [he]
  exact ⟨dedupGo_pairwise [] r.failures, dedupGo_sublist [] r.failures,
    fun f hf => dedupGo_first_occurrence hf,
    fun g hg => dedupGo_complete hg (by simp)⟩

/-- Witness for C7: a concrete raw extraction containing a duplicate key;
the analyze step's output is a deduplicated subsequence of it. -/
theorem analyze_failures_deduplicated_witness :
    ((analyze_agent "t2"
        (Except.ok ⟨[⟨"LINTING", "src/utils.py", 15, "E302 expected 2 blank lines"⟩,
                     ⟨"SYNTAX", "src/app.py", 3, "SyntaxError: invalid syntax"⟩,
                     ⟨"LINTING", "src/utils.py", 15, "E302 duplicate finding"⟩], 7, 5⟩)
        { initial_state "u" "T" "L" "" "" 5 "r" "ts" with clone_path := "/tmp/x" }).failures).Sublist
      [⟨"LINTING", "src/utils.py", 15, "E302 expected 2 blank lines"⟩,
       ⟨"SYNTAX", "src/app.py", 3, "SyntaxError: invalid syntax"⟩,
       ⟨"LINTING", "src/utils.py", 15, "E302 duplicate finding"⟩] :=
  (analyze_failures_deduplicated "t2"
      ⟨[⟨"LINTING", "src/utils.py", 15, "E302 expected 2 blank lines"⟩,
        ⟨"SYNTAX", "src/app.py", 3, "SyntaxError: invalid syntax"⟩,
        ⟨"LINTING", "src/utils.py", 15, "E302 duplicate finding"⟩], 7, 5⟩
      { initial_state "u" "T" "L" "" "" 5 "r" "ts" with clone_path := "/tmp/x" }
      (by decide) (by decide)).2.1

theorem apply_fix_bug_type (fs : FsOracle) (llm : Except String String)
    (f : FailureEvent) (k : String) : ((apply_fix fs llm f k).1).bug_type = f.bug_type := by
  rcases hw : fs.writeError with _ | exc <;>
    unfold apply_fix fallbackWrite <;> simp [hw] <;> split_ifs <;> rfl

theorem apply_fix_file (fs : FsOracle) (llm : Except String String)
    (f : FailureEvent) (k : String) : ((apply_fix fs llm f k).1).file = f.file := by
  rcases hw : fs.writeError with _ | exc <;>
    unfold apply_fix fallbackWrite <;> simp [hw] <;> split_ifs <;> rfl

theorem apply_fix_line (fs : FsOracle) (llm : Except String String)
    (f : FailureEvent) (k : String) : ((apply_fix fs llm f k).1).line = f.line := by
  rcases hw : fs.writeError with _ | exc <;>
    unfold apply_fix fallbackWrite <;> simp [hw] <;> split_ifs <;> rfl

/-- C8.  When the fix step runs (non-empty failure list, run not failed),
it yields exactly one `FixRecord` per `FailureEvent`, and the record at
each ordinal position carries the same `(bug_type, file, line)` as the
failure at that position. -/
theorem fix_step_one_record_per_failure (t : String) (fs : FailureEvent → FsOracle)
    (llm : FailureEvent → Except String String) (s : AgentState)
    (h1 : s.failures ≠ []) (h2 : s.status ≠ "failed") :
    (fix_agent t fs llm s).fixes.length = s.failures.length
    ∧ ∀ i : ℕ,
        ((fix_agent t fs llm s).fixes[i]?).map FixRecord.bug_type
          = (s.failures[i]?).map FailureEvent.bug_type
        ∧ ((fix_agent t fs llm s).fixes[i]?).map FixRecord.file
          = (s.failures[i]?).map FailureEvent.file
        ∧ ((fix_agent t fs llm s).fixes[i]?).map FixRecord.line
          = (s.failures[i]?).map FailureEvent.line := by
  have he : (fix_agent t fs llm s).fixes
      = s.failures.map (fun f => (apply_fix (fs f) (llm f) f s.openai_key).1) := by
    simp [fix_agent, h1, h2]
  constructor
  · rw [he, List.length_map]
  · intro i
    rw [he, List.getElem?_map]
    rcases hx : s.failures[i]? with _ | f
    · simp
    · simp [apply_fix_bug_type, apply_fix_file, apply_fix_line]

/-- Witness for C8: a concrete two-failure state (one resolvable file, one
not) yields exactly two fix records. -/
theorem fix_step_one_record_per_failure_witness :
    (fix_agent "t3"
        (fun f => if f.file = "src/app.py" then ⟨true, ["\tx = 1\n"], none⟩ else ⟨false, [], none⟩)
        (fun _ => Except.error "no delegate")
        { initial_state "u" "T" "L" "" "" 5 "r" "ts" with
            clone_path := "/tmp/x"
            failures := [⟨"INDENTATION", "src/app.py", 1, "IndentationError"⟩,
                         ⟨"IMPORT", "gone.py", 2, "ModuleNotFoundError"⟩] }).fixes.length
      = ({ initial_state "u" "T" "L" "" "" 5 "r" "ts" with
            clone_path := "/tmp/x"
            failures := [⟨"INDENTATION", "src/app.py", 1, "IndentationError"⟩,
                         ⟨"IMPORT", "gone.py", 2, "ModuleNotFoundError"⟩] } : AgentState).failures.length :=
  (fix_step_one_record_per_failure "t3"
      (fun f => if f.file = "src/app.py" then ⟨true, ["\tx = 1\n"], none⟩ else ⟨false, [], none⟩)
      (fun _ => Except.error "no delegate")
      { initial_state "u" "T" "L" "" "" 5 "r" "ts" with
          clone_path := "/tmp/x"
          failures := [⟨"INDENTATION", "src/app.py", 1, "IndentationError"⟩,
                       ⟨"IMPORT", "gone.py", 2, "ModuleNotFoundError"⟩] }
      (by decide) (by decide)).1

theorem clone_agent_retry_fields (t : String) (res : CloneResult) (s : AgentState) :
    (clone_agent t res s).retry_count = s.retry_count
    ∧ (clone_agent t res s).retry_limit = s.retry_limit := by
  cases res <;> exact ⟨rfl, rfl⟩

theorem analyze_agent_retry_fields (t : String) (res : Except String AnalyzeOutcome)
    (s : AgentState) :
    (analyze_agent t res s).retry_count = s.retry_count
    ∧ (analyze_agent t res s).retry_limit = s.retry_limit := by
  unfold analyze_agent; split_ifs
  · exact ⟨rfl, rfl⟩
  · cases res <;> exact ⟨rfl, rfl⟩

theorem analyze_agent_run_status (t : String) (res : Except String AnalyzeOutcome)
    (s : AgentState) : (analyze_agent t res s).status = s.status := by
  unfold analyze_agent; split_ifs
  · rfl
  · cases res <;> rfl

theorem fix_agent_retry_fields (t : String) (fs : FailureEvent → FsOracle)
    (llm : FailureEvent → Except String String) (s : AgentState) :
    (fix_agent t fs llm s).retry_count = s.retry_count
    ∧ (fix_agent t fs llm s).retry_limit = s.retry_limit := by
  unfold fix_agent; split_ifs <;> exact ⟨rfl, rfl⟩

theorem fix_agent_run_status (t : String) (fs : FailureEvent → FsOracle)
    (llm : FailureEvent → Except String String) (s : AgentState) :
    (fix_agent t fs llm s).status = s.status := by
  unfold fix_agent; split_ifs <;> rfl

theorem git_agent_retry_fields (t : String) (res : GitResult) (s : AgentState) :
    (git_agent t res s).retry_count = s.retry_count
    ∧ (git_agent t res s).retry_limit = s.retry_limit := by
  unfold git_agent; split_ifs
  · exact ⟨rfl, rfl⟩
  · cases res <;> exact ⟨rfl, rfl⟩

theorem git_agent_run_status (t : String) (res : GitResult) (s : AgentState) :
    (git_agent t res s).status = s.status := by
  unfold git_agent; split_ifs
  · rfl
  · cases res <;> rfl

theorem cicd_agent_retry_fields (t r : String) (s : AgentState) :
    (cicd_agent t r s).retry_count = s.retry_count
    ∧ (cicd_agent t r s).retry_limit = s.retry_limit := by
  unfold cicd_agent; split_ifs <;> exact ⟨rfl, rfl⟩

theorem score_agent_retry_fields (t : String) (s : AgentState) :
    (score_agent t s).retry_count = s.retry_count
    ∧ (score_agent t s).retry_limit = s.retry_limit :=
  ⟨rfl, rfl⟩

theorem should_retry_cases (s : AgentState) :
    should_retry s = "score" ∨ should_retry s = "analyze" := by
  unfold should_retry; split_ifs <;> simp

theorem should_retry_analyze_lt {s : AgentState} (h : should_retry s = "analyze") :
    (s.retry_count : Int) < s.retry_limit := by
  unfold should_retry at h
  split_ifs at h with h1 h2 h3
  all_goals first
  | exact absurd h (by decide)
  | exact not_le.mp h3

theorem should_retry_score_ge {s : AgentState} (h : should_retry s = "score")
    (h1 : s.status ≠ "failed") (h2 : s.cicd_status ≠ "success") :
    s.retry_limit ≤ (s.retry_count : Int) := by
  unfold should_retry at h
  rw [if_neg h1, if_neg h2] at h
  by_cases h3 : s.retry_limit ≤ (s.retry_count : Int)
  · exact h3
  · rw [if_neg h3] at h
    exact absurd h (by decide)

theorem step_preserves_retryInv {L : Int} {a b : Node × AgentState}
    (h : Step a b) (hi : RetryInv L a) : RetryInv L b := by
  obtain ⟨hL, hle, hinc⟩ := hi
  cases h with
  | clone t res s =>
      have hf := clone_agent_retry_fields t res s
      exact ⟨by rw [hf.2]; exact hL, by rw [hf.1]; exact hle,
        fun hn => by simp at hn⟩
  | analyze t res s =>
      have hf := analyze_agent_retry_fields t res s
      exact ⟨by rw [hf.2]; exact hL, by rw [hf.1]; exact hle,
        fun hn => by simp at hn⟩
  | fix t fs llm s =>
      have hf := fix_agent_retry_fields t fs llm s
      exact ⟨by rw [hf.2]; exact hL, by rw [hf.1]; exact hle,
        fun hn => by simp at hn⟩
  | git t res s =>
      have hf := git_agent_retry_fields t res s
      exact ⟨by rw [hf.2]; exact hL, by rw [hf.1]; exact hle,
        fun hn => by simp at hn⟩
  | cicd t r s =>
      have hf := cicd_agent_retry_fields t r s
      refine ⟨by rw [hf.2]; exact hL, by rw [hf.1]; exact hle, ?_⟩
      intro hn
      have hra : should_retry (cicd_agent t r s) = "analyze" := by
        rcases should_retry_cases (cicd_agent t r s) with h1 | h1
        · rw [routeOf, if_pos h1] at hn
          simp at hn
        · exact h1
      have hlt := should_retry_analyze_lt hra
      rw [hf.1, hf.2, hL] at hlt
      rw [hf.1]
      exact hlt
  | increment s =>
      have h1 : (s.retry_count : Int) < L := hinc rfl
      refine ⟨hL, ?_, fun hn => by simp at hn⟩
      show (((s.retry_count + 1 : ℕ) : Int)) ≤ L
      push_cast
      omega
  | score t s =>
      have hf := score_agent_retry_fields t s
      exact ⟨by rw [hf.2]; exact hL, by rw [hf.1]; exact hle,
        fun hn => by simp at hn⟩

theorem reach_retryInv {L : Int} {a b : Node × AgentState}
    (h : Relation.ReflTransGen Step a b) (hi : RetryInv L a) : RetryInv L b := by
  induction h with
  | refl => exact hi
  | tail _ hstep ih => exact step_preserves_retryInv hstep ih

theorem stepF_preserves_runInv {L : Int} {a b : Node × AgentState}
    (h : StepF a b) (hi : RunInv L a) : RunInv L b := by
  obtain ⟨hstep, hcicd, hclone⟩ := h
  obtain ⟨hL, hle, hrun, hinc, hsc⟩ := hi
  cases hstep with
  | clone t res s =>
      have hs : s.status = "running" := hrun (by simp)
      cases res with
      | ok tmp lang =>
          have hf := clone_agent_retry_fields t (CloneResult.ok tmp lang) s
          exact ⟨by rw [hf.2]; exact hL, by rw [hf.1]; exact hle,
            fun _ => hs, fun hn => by simp at hn,
            fun hn => by rcases hn with hn | hn <;> simp at hn⟩
      | err msg =>
          exact absurd (show (clone_agent t (CloneResult.err msg) s).status = "failed" from rfl)
            (hclone rfl)
  | analyze t res s =>
      have hf := analyze_agent_retry_fields t res s
      have hs : s.status = "running" := hrun (by simp)
      exact ⟨by rw [hf.2]; exact hL, by rw [hf.1]; exact hle,
        fun _ => by rw [analyze_agent_run_status]; exact hs,
        fun hn => by simp at hn,
        fun hn => by rcases hn with hn | hn <;> simp at hn⟩
  | fix t fs llm s =>
      have hf := fix_agent_retry_fields t fs llm s
      have hs : s.status = "running" := hrun (by simp)
      exact ⟨by rw [hf.2]; exact hL, by rw [hf.1]; exact hle,
        fun _ => by rw [fix_agent_run_status]; exact hs,
        fun hn => by simp at hn,
        fun hn => by rcases hn with hn | hn <;> simp at hn⟩
  | git t res s =>
      have hf := git_agent_retry_fields t res s
      have hs : s.status = "running" := hrun (by simp)
      exact ⟨by rw [hf.2]; exact hL, by rw [hf.1]; exact hle,
        fun _ => by rw [git_agent_run_status]; exact hs,
        fun hn => by simp at hn,
        fun hn => by rcases hn with hn | hn <;> simp at hn⟩
  | cicd t r s =>
      have hf := cicd_agent_retry_fields t r s
      have hs : s.status = "running" := hrun (by simp)
      have hs' : (cicd_agent t r s).status = "running" := by
        rw [cicd_agent_preserves_run_status]; exact hs
      have hfail : (cicd_agent t r s).cicd_status = "failure" := hcicd rfl
      by_cases hr : should_retry (cicd_agent t r s) = "score"
      · have hb1 : routeOf (cicd_agent t r s) = Node.score := by rw [routeOf, if_pos hr]
        have hge := should_retry_score_ge hr (by rw [hs']; decide) (by rw [hfail]; decide)
        rw [hf.1, hf.2, hL] at hge
        have heq : ((cicd_agent t r s).retry_count : Int) = L := by
          rw [hf.1]
          exact le_antisymm (by simpa using hle) hge
        rw [hb1]
        exact ⟨by rw [hf.2]; exact hL, by rw [hf.1]; exact hle,
          fun _ => hs', fun hn => by simp at hn, fun _ => heq⟩
      · have hra : should_retry (cicd_agent t r s) = "analyze" :=
          (should_retry_cases _).resolve_left hr
        have hb1 : routeOf (cicd_agent t r s) = Node.increment_retry := by
          rw [routeOf, if_neg hr]
        have hlt := should_retry_analyze_lt hra
        rw [hf.2, hL] at hlt
        rw [hb1]
        exact ⟨by rw [hf.2]; exact hL, by rw [hf.1]; exact hle,
          fun _ => hs', fun _ => hlt,
          fun hn => by rcases hn with hn | hn <;> simp at hn⟩
  | increment s =>
      have h1 : (s.retry_count : Int) < L := hinc rfl
      have hs : s.status = "running" := hrun (by simp)
      refine ⟨hL, ?_, fun _ => hs, fun hn => by simp at hn,
        fun hn => by rcases hn with hn | hn <;> simp at hn⟩
      show (((s.retry_count + 1 : ℕ) : Int)) ≤ L
      push_cast
      omega
  | score t s =>
      have hf := score_agent_retry_fields t s
      have heq : (s.retry_count : Int) = L := hsc (Or.inl rfl)
      exact ⟨by rw [hf.2]; exact hL, by rw [hf.1]; exact hle,
        fun hn => absurd rfl hn, fun hn => by simp at hn,
        fun _ => by rw [hf.1]; exact heq⟩

theorem reach_runInv {L : Int} {a b : Node × AgentState}
    (h : Relation.ReflTransGen StepF a b) (hi : RunInv L a) : RunInv L b := by
  induction h with
  | refl => exact hi
  | tail _ hstep ih => exact stepF_preserves_runInv hstep ih

/-- C6.  Along the pipeline's step relation: no step ever decreases
`retry_count`; from an initial state with `retry_count = 0` and a
nonnegative budget every reachable state keeps `retry_count` within
`retry_limit`; and a run whose CI-monitor step reports a CI failure on
every cycle (and whose clone step does not fail the run) reaches the score
node with `retry_count` equal to `retry_limit` exactly. -/
theorem retry_count_invariants :
    (∀ a b : Node × AgentState, Step a b → a.2.retry_count ≤ b.2.retry_count)
    ∧ (∀ (s0 : AgentState) (n : Node) (s : AgentState),
        s0.retry_count = 0 → 0 ≤ s0.retry_limit →
        Relation.ReflTransGen Step (Node.clone, s0) (n, s) →
        (s.retry_count : Int) ≤ s0.retry_limit)
    ∧ (∀ s0 s : AgentState,
        s0.retry_count = 0 → 0 ≤ s0.retry_limit → s0.status = "running" →
        Relation.ReflTransGen StepF (Node.clone, s0) (Node.score, s) →
        (s.retry_count : Int) = s0.retry_limit) := by
  refine ⟨?_, ?_, ?_⟩
  · intro a b h
    cases h with
    | clone t res s => rw [(clone_agent_retry_fields t res s).1]
    | analyze t res s => rw [(analyze_agent_retry_fields t res s).1]
    | fix t fs llm s => rw [(fix_agent_retry_fields t fs llm s).1]
    | git t res s => rw [(git_agent_retry_fields t res s).1]
    | cicd t r s => rw [(cicd_agent_retry_fields t r s).1]
    | increment s => exact Nat.le_succ _
    | score t s => rw [(score_agent_retry_fields t s).1]
  · intro s0 n s h0 hL hreach
    have hi : RetryInv s0.retry_limit (Node.clone, s0) :=
      ⟨rfl, by rw [h0]; simpa using hL, fun hn => by simp at hn⟩
    exact (reach_retryInv hreach hi).2.1
  · intro s0 s h0 hL hs hreach
    have hi : RunInv s0.retry_limit (Node.clone, s0) :=
      ⟨rfl, by rw [h0]; simpa using hL, fun _ => hs,
       fun hn => by simp at hn,
       fun hn => by rcases hn with hn | hn <;> simp at hn⟩
    exact (reach_runInv hreach hi).2.2.2.2 (Or.inl rfl)

/-- Witness for C6: a concrete run with retry budget 0 — clone succeeds,
analysis finds nothing, the simulated CI reports failure — reaches the
score node with `retry_count` equal to the budget. -/
theorem retry_count_invariants_witness :
    ((cicd_agent "t5" "w"
        (git_agent "t4" GitResult.nothingToCommit
          (fix_agent "t3" (fun _ => ⟨false, [], none⟩) (fun _ => Except.error "e")
            (analyze_agent "t2" (Except.ok ⟨[], 0, 0⟩)
              (clone_agent "t1" (CloneResult.ok "/tmp/x" "python")
                (initial_state "u" "T" "L" "" "" 0 "r" "ts")))))).retry_count : Int)
      = (initial_state "u" "T" "L" "" "" 0 "r" "ts").retry_limit := by
  refine retry_count_invariants.2.2 _ _ rfl (by decide) rfl ?_
  have hroute : routeOf (cicd_agent "t5" "w"
      (git_agent "t4" GitResult.nothingToCommit
        (fix_agent "t3" (fun _ => ⟨false, [], none⟩) (fun _ => Except.error "e")
          (analyze_agent "t2" (Except.ok ⟨[], 0, 0⟩)
            (clone_agent "t1" (CloneResult.ok "/tmp/x" "python")
              (initial_state "u" "T" "L" "" "" 0 "r" "ts")))))) = Node.score := by decide
  refine Relation.ReflTransGen.tail (Relation.ReflTransGen.tail (Relation.ReflTransGen.tail
    (Relation.ReflTransGen.tail (Relation.ReflTransGen.single
      (And.intro (Step.clone "t1" (CloneResult.ok "/tmp/x" "python") _)
        (And.intro (fun h => nomatch h) (fun _ => by decide))))
      (And.intro (Step.analyze "t2" (Except.ok ⟨[], 0, 0⟩) _)
        (And.intro (fun h => nomatch h) (fun h => nomatch h))))
      (And.intro (Step.fix "t3" (fun _ => ⟨false, [], none⟩) (fun _ => Except.error "e") _)
        (And.intro (fun h => nomatch h) (fun h => nomatch h))))
      (And.intro (Step.git "t4" GitResult.nothingToCommit _)
        (And.intro (fun h => nomatch h) (fun h => nomatch h))))
    (And.intro (hroute ▸ Step.cicd "t5" "w" _)
      (And.intro (fun _ => by decide) (fun h => nomatch h)))

end Rift
